import Mathlib

/-!
Verification of the lightning post-processing core (`src/Lightning.cpp`):
a shallow embedding of the non-volatile state record `nvLightning_t` and of
the operations `Lightning::reset`, `Lightning::hist_init`,
`Lightning::update`, `Lightning::lastEvent` and `Lightning::pastHour`,
together with theorems settling the specified properties.

Modelling conventions:
* `time_t` (64-bit) values are plain `Int` (no overflow in any reachable
  range); the 16-bit signed fields `prevCount` and `events` receive their
  stores through the modular narrowing conversion `wrap16`, and arguments to
  `hist_init`'s `uint16_t` parameter pass through `wrapU16`, exactly as the
  C++ integer conversions behave.
* `LIGHTNING_HIST_SIZE` and `LIGHTNING_UPD_RATE` are compile-time constants
  declared in the (not excerpted) header; every definition is parameterised
  over them (`histSize`, `updRate`).
* The wall-clock decomposition performed by `localtime_r` is modelled with a
  zero UTC offset: minute-of-hour of `t` is `(t % 3600) / 60`.  A fixed
  timezone offset only shifts every time argument by the same constant, and
  all theorems quantify over the time arguments.
* The history array is a `List Int` of length `histSize`; the C++ array
  write `hist[idx] = v` is `List.set`, which (like the verified claims,
  which always keep the index in bounds) only acts for `idx < histSize`.
-/

/-- The C++ narrowing conversion from `int` to `int16_t` (modular, as
specified since C++20 and implemented by every mainstream compiler). -/
def wrap16 (x : Int) : Int := (x + 32768) % 65536 - 32768

/-- The C++ conversion from `int` to `uint16_t` (modular; always lands in
`[0, 65535]`). -/
def wrapU16 (x : Int) : Int := x % 65536

/-- The non-volatile state record `nvLightning_t`. -/
structure NvLightning where
  lastUpdate : Int
  prevCount : Int
  events : Int
  distance : Int
  timestamp : Int
  hist : List Int
deriving DecidableEq, Repr

/-- Modelled from the spec: the value of the default argument of
`Lightning::hist_init`, declared in `Lightning.h`, which is not part of the
excerpted source; the spec fixes the intended fill to the sentinel `-1`
("no data") for both the cold-start and the window-expiry reset.  Note that
`hist_init`'s parameter is `uint16_t` (line 124), so this `int` value is
converted mod `2^16` at the call boundary: the fill actually stored is
`wrapU16 (-1) = 65535`, never `-1`. -/
def histInitFill : Int := -1

/-- The static initializer of the global `nvLightning` record
(`Lightning.cpp`, lines 94-111): `lastUpdate = 0`, `prevCount = -1`,
`events = 0`, `distance = 0`, `timestamp = 0`, `hist = {0}` (aggregate
initialization zero-fills the whole array). -/
def nvLightningInit (histSize : Nat) : NvLightning :=
  { lastUpdate := 0, prevCount := -1, events := 0, distance := 0,
    timestamp := 0, hist := List.replicate histSize 0 }

namespace Lightning

/-- `Lightning::reset` (lines 113-121).  Note that the history array is not
touched by `reset`. -/
def reset (s : NvLightning) : NvLightning :=
  { s with lastUpdate := 0, prevCount := -1, events := -1, distance := 0,
           timestamp := 0 }

/-- `Lightning::hist_init` (lines 123-129): fill every history bucket with
`count`.  The parameter is `uint16_t`, so an `int` argument supplied by a
caller (such as the header's default) is converted mod `2^16` at the call
boundary; the value stored into the `int` array therefore always lies in
`[0, 65535]`. -/
def hist_init (histSize : Nat) (count : Int) : List Int :=
  List.replicate histSize (wrapU16 count)

/-- Minute-of-hour of a timestamp (`localtime_r` followed by `tm_min`),
modelled with zero UTC offset. -/
def minuteOfHour (t : Int) : Nat := (t % 3600).toNat / 60

/-- The bucket index computed by `update` for a timestamp:
`idx = tm_min / LIGHTNING_UPD_RATE` (lines 210-214 and 228-230). -/
def bucketIdx (updRate : Nat) (t : Int) : Nat := minuteOfHour t / updRate

/-- Number of iterations of the invalidation loop (line 227): the number of
values `ts = lastUpdate + k * (updRate * 60)`, `k ≥ 1`, with `ts < timestamp`. -/
def walkSteps (updRate : Nat) (lastUpdate timestamp : Int) : Nat :=
  ((timestamp - lastUpdate - 1) / ((updRate : Int) * 60)).toNat

/-- The invalidation loop (lines 227-232): for each full bucket period
boundary `ts` strictly between `lastUpdate` and `timestamp`, set the bucket
of `ts` to `-1`. -/
def invalidateWalk (updRate : Nat) (lastUpdate timestamp : Int)
    (hist : List Int) : List Int :=
  (List.range (walkSteps updRate lastUpdate timestamp)).foldl
    (fun (h : List Int) (k : Nat) =>
      h.set (bucketIdx updRate (lastUpdate + ((k : Int) + 1) * ((updRate : Int) * 60))) (-1))
    hist

/-- `Lightning::update` (lines 162-247).  The `startup` flag is unused by
the source (`(void)startup`).  Stores into the `int16_t` fields `prevCount`
and `events` go through `wrap16`.  Note two facts of the source faithfully
reproduced here: `prevCount` is re-baselined to `count` (line 185) before
the history write `hist[idx] = count - prevCount` (line 221), and
`lastUpdate` is never assigned anywhere in `update`. -/
def update (histSize updRate : Nat) (s0 : NvLightning)
    (timestamp count distance : Int) (startup : Bool) : NvLightning :=
  let s1 := if s0.prevCount = -1 then
      { s0 with hist := hist_init histSize histInitFill }
    else s0
  if s1.prevCount = -1 ∨ count < s1.prevCount then
    { s1 with prevCount := wrap16 count }
  else
    let s2 := if s1.prevCount < count then
        { s1 with events := wrap16 (count - s1.prevCount),
                  prevCount := wrap16 count,
                  distance := distance, timestamp := timestamp }
      else s1
    let tDelta := timestamp - s2.lastUpdate
    if tDelta < 0 then s2
    else
      let s3 := if ((histSize * updRate * 60 : Nat) : Int) ≤ tDelta then
          { s2 with hist := hist_init histSize histInitFill }
        else s2
      let idx := bucketIdx updRate timestamp
      let s4 := { s3 with hist := s3.hist.set idx (count - s3.prevCount) }
      { s4 with hist := invalidateWalk updRate s4.lastUpdate timestamp s4.hist }

/-- `Lightning::lastEvent` (lines 249-261), as the pure projection it is:
`none` when `events == -1`, otherwise the stored snapshot.  The C++ function
assigns only to its by-reference out-parameters, never to `nvLightning`, so
the embedding takes the state and returns a result without a state. -/
def lastEvent (s : NvLightning) : Option (Int × Int × Int) :=
  if s.events = -1 then none
  else some (s.timestamp, s.events, s.distance)

/-- `Lightning::pastHour` (lines 263-278), as the pure fold it is: sum every
bucket `≠ -1`, and report whether any such bucket exists.  The C++ function
never assigns to `nvLightning`. -/
def pastHour (s : NvLightning) : Int × Bool :=
  s.hist.foldl (fun acc v => if v ≠ -1 then (acc.1 + v, true) else acc)
    (0, false)

end Lightning

namespace Lightning

/-! ## Helper lemmas -/

lemma wrap16_eq_self (x : Int) (h1 : -32768 ≤ x) (h2 : x < 32768) :
    wrap16 x = x := by
  unfold wrap16; omega

lemma pastHour_foldl (l : List Int) (a : Int) (r : Bool) :
    l.foldl (fun acc v => if v ≠ -1 then (acc.1 + v, true) else acc) (a, r) =
      (a + (l.filter (fun v => decide (v ≠ -1))).sum,
       r || l.any (fun v => decide (v ≠ -1))) := by
  induction l generalizing a r with
  | nil => simp
  | cons x xs ih =>
    rw [List.foldl_cons]
    by_cases hx : x = -1
    · rw [if_neg (by simp [hx])]
      rw [ih, List.filter_cons, List.any_cons]
      simp [hx]
    · rw [if_pos hx]
      rw [ih, List.filter_cons, List.any_cons]
      simp [hx, add_assoc]

lemma set_neg1_keeps (l : List Int) (j i : Nat) (h : l[i]? = some (-1)) :
    (l.set j (-1))[i]? = some (-1) := by
  rcases eq_or_ne j i with rfl | hne
  · have hi : j < l.length := by
      by_contra hle
      rw [List.getElem?_eq_none (by omega)] at h
      exact Option.noConfusion h
    exact List.getElem?_set_eq_of_lt _ hi
  · rw [List.getElem?_set_ne hne]
    exact h

lemma foldl_set_keeps (g : Nat → Nat) (ks : List Nat) (l : List Int) (i : Nat)
    (h : l[i]? = some (-1)) :
    (ks.foldl (fun h k => h.set (g k) (-1)) l)[i]? = some (-1) := by
  induction ks generalizing l with
  | nil => exact h
  | cons k ks ih =>
    rw [List.foldl_cons]
    exact ih _ (set_neg1_keeps l (g k) i h)

lemma foldl_set_length (g : Nat → Nat) (ks : List Nat) (l : List Int) :
    (ks.foldl (fun h k => h.set (g k) (-1)) l).length = l.length := by
  induction ks generalizing l with
  | nil => rfl
  | cons k ks ih =>
    rw [List.foldl_cons, ih, List.length_set]

lemma foldl_set_hit (g : Nat → Nat) (m k : Nat) (l : List Int)
    (hk : k < m) (hi : g k < l.length) :
    ((List.range m).foldl (fun h j => h.set (g j) (-1)) l)[g k]? = some (-1) := by
  induction m with
  | zero => omega
  | succ m ih =>
    rw [List.range_succ, List.foldl_append, List.foldl_cons, List.foldl_nil]
    rcases Nat.lt_or_ge k m with h | h
    · exact set_neg1_keeps _ _ _ (ih h)
    · have hkm : k = m := by omega
      subst hkm
      exact List.getElem?_set_eq_of_lt _ (by rw [foldl_set_length]; exact hi)

lemma foldl_set_miss (g : Nat → Nat) (m : Nat) (l : List Int) (i : Nat)
    (h : ∀ k, k < m → g k ≠ i) :
    ((List.range m).foldl (fun h j => h.set (g j) (-1)) l)[i]? = l[i]? := by
  induction m with
  | zero => simp
  | succ m ih =>
    rw [List.range_succ, List.foldl_append, List.foldl_cons, List.foldl_nil]
    rw [List.getElem?_set_ne (h m (by omega))]
    exact ih (fun k hk => h k (by omega))

lemma minuteOfHour_lt (t : Int) : minuteOfHour t < 60 := by
  unfold minuteOfHour
  have h1 : t % 3600 < 3600 := Int.emod_lt_of_pos t (by norm_num)
  have h0 : 0 ≤ t % 3600 := Int.emod_nonneg t (by norm_num)
  omega

lemma updRate_pos (histSize updRate : Nat) (hHU : histSize * updRate = 60) :
    0 < updRate := by
  rcases Nat.eq_zero_or_pos updRate with h | h
  · rw [h, Nat.mul_zero] at hHU
    omega
  · exact h

lemma bucketIdx_lt (histSize updRate : Nat) (t : Int)
    (hHU : histSize * updRate = 60) :
    bucketIdx updRate t < histSize := by
  have hU : 0 < updRate := updRate_pos histSize updRate hHU
  unfold bucketIdx
  have h := minuteOfHour_lt t
  rw [Nat.div_lt_iff_lt_mul hU]
  omega

lemma bucketIdx_eq_div (updRate : Nat) (t : Int) :
    bucketIdx updRate t = (t % 3600).toNat / (60 * updRate) := by
  unfold bucketIdx minuteOfHour
  rw [Nat.div_div_eq_div_mul]

lemma natBucket_step (p H A : Nat) (hp : 0 < p) (hA : A < p * H) :
    (A + p) % (p * H) / p = (A / p + 1) % H := by
  have hcomm := Nat.mul_comm p H
  have hq : A / p < H := by
    rw [Nat.div_lt_iff_lt_mul hp]
    omega
  have hdm := Nat.div_add_mod A p
  have hr : A % p < p := Nat.mod_lt A hp
  rcases Nat.lt_or_ge (A / p + 1) H with hlt | hge
  · have e1 : p * (A / p + 1) = p * (A / p) + p := by ring
    have e2 : p * (A / p + 2) = p * (A / p) + p + p := by ring
    have h1 : p * (A / p + 2) ≤ p * H := Nat.mul_le_mul_left p (by omega)
    have hsum : A + p < p * H := by omega
    have h3 : A + p = p * (A / p + 1) + A % p := by omega
    rw [Nat.mod_eq_of_lt hsum, h3, Nat.mul_add_div hp, Nat.div_eq_of_lt hr,
        Nat.add_zero, Nat.mod_eq_of_lt hlt]
  · have hqH : A / p + 1 = H := by omega
    have e1 : p * H = p * (A / p) + p := by rw [← hqH]; ring
    have h3 : A + p = p * H + A % p := by omega
    rw [h3, Nat.add_mod_left, Nat.mod_eq_of_lt (show A % p < p * H by omega),
        Nat.div_eq_of_lt hr, hqH, Nat.mod_self]

lemma bucketIdx_step (histSize updRate : Nat) (t : Int)
    (hHU : histSize * updRate = 60) (hH : 2 ≤ histSize) :
    bucketIdx updRate (t + (updRate : Int) * 60) =
      (bucketIdx updRate t + 1) % histSize := by
  have hU : 0 < updRate := updRate_pos histSize updRate hHU
  have hU30 : updRate ≤ 30 := by
    have h2 : 2 * updRate ≤ histSize * updRate := Nat.mul_le_mul_right updRate hH
    omega
  have h0 : (0 : Int) ≤ t % 3600 := Int.emod_nonneg t (by norm_num)
  have h1 : t % 3600 < 3600 := Int.emod_lt_of_pos t (by norm_num)
  have hx0 : (0 : Int) ≤ (updRate : Int) * 60 := by positivity
  have hx1 : (updRate : Int) * 60 < 3600 := by
    have : ((updRate : Int)) ≤ 30 := by exact_mod_cast hU30
    omega
  have hmod : (t + (updRate : Int) * 60) % 3600 =
      ((t % 3600) + (updRate : Int) * 60) % 3600 := by
    rw [Int.add_emod, Int.emod_eq_of_lt hx0 hx1]
  rw [bucketIdx_eq_div, bucketIdx_eq_div, hmod]
  obtain ⟨A, hA⟩ : ∃ A : Nat, t % 3600 = (A : Int) :=
    ⟨(t % 3600).toNat, (Int.toNat_of_nonneg h0).symm⟩
  rw [hA, Int.toNat_natCast]
  have hcast : ((A : Int) + (updRate : Int) * 60) % 3600 =
      (((A + updRate * 60) % 3600 : Nat) : Int) := by
    push_cast
    ring
  rw [hcast, Int.toNat_natCast]
  have h3600 : 60 * updRate * histSize = 3600 := by
    rw [mul_assoc, mul_comm updRate histSize, hHU]
    norm_num
  have hAlt : A < 3600 := by
    rw [hA] at h1
    exact_mod_cast h1
  have hstep := natBucket_step (60 * updRate) histSize A
    (by omega) (by rw [h3600]; exact hAlt)
  rw [h3600] at hstep
  rw [show A + updRate * 60 = A + 60 * updRate by ring]
  exact hstep

lemma bucketIdx_add_mul (histSize updRate : Nat) (t : Int)
    (hHU : histSize * updRate = 60) (hH : 2 ≤ histSize) (k : Nat) :
    bucketIdx updRate (t + (k : Int) * ((updRate : Int) * 60)) =
      (bucketIdx updRate t + k) % histSize := by
  induction k with
  | zero =>
    simp [Nat.mod_eq_of_lt (bucketIdx_lt histSize updRate t hHU)]
  | succ k ih =>
    have hsplit : t + ((k + 1 : Nat) : Int) * ((updRate : Int) * 60) =
        (t + (k : Int) * ((updRate : Int) * 60)) + (updRate : Int) * 60 := by
      push_cast
      ring
    rw [hsplit, bucketIdx_step histSize updRate _ hHU hH, ih]
    have hme := (Nat.mod_modEq (bucketIdx updRate t + k) histSize).add_right 1
    have : (bucketIdx updRate t + k) % histSize + 1 ≡
        bucketIdx updRate t + (k + 1) [MOD histSize] := by
      rw [← Nat.add_assoc]
      exact hme
    exact this

lemma walkSteps_exact (updRate n : Nat) (L : Int)
    (hU : 0 < updRate) (hn : 1 ≤ n) :
    walkSteps updRate L (L + (n : Int) * ((updRate : Int) * 60)) = n - 1 := by
  unfold walkSteps
  have hU1 : (1 : Int) ≤ (updRate : Int) := by exact_mod_cast hU
  have hp : (0 : Int) < (updRate : Int) * 60 := by omega
  have h1 : L + (n : Int) * ((updRate : Int) * 60) - L - 1 =
      ((updRate : Int) * 60 - 1) + ((n : Int) - 1) * ((updRate : Int) * 60) := by
    ring
  rw [h1, Int.add_mul_ediv_right _ _ (ne_of_gt hp),
      Int.ediv_eq_zero_of_lt (by omega) (by omega)]
  omega

lemma add_mod_inj (H q a b : Nat) (ha : a < H) (hb : b < H)
    (h : (q + a) % H = (q + b) % H) : a = b := by
  have h' : q + a ≡ q + b [MOD H] := h
  have h2 : a ≡ b [MOD H] := Nat.ModEq.add_left_cancel' q h'
  have h3 : a % H = b % H := h2
  rw [Nat.mod_eq_of_lt ha, Nat.mod_eq_of_lt hb] at h3
  exact h3

/-- Shape of the history after an `update` call that takes none of the
abort paths: the (possibly window-reset) history gets the current-bucket
write and then the invalidation walk. -/
lemma update_normal_hist (histSize updRate : Nat) (s : NvLightning)
    (t c d : Int) (b : Bool)
    (h1 : s.prevCount ≠ -1) (h2 : s.prevCount ≤ c) (h3 : 0 ≤ t - s.lastUpdate) :
    (update histSize updRate s t c d b).hist =
      invalidateWalk updRate s.lastUpdate t
        ((if ((histSize * updRate * 60 : Nat) : Int) ≤ t - s.lastUpdate then
            hist_init histSize histInitFill
          else s.hist).set (bucketIdx updRate t)
          (c - (if s.prevCount < c then wrap16 c else s.prevCount))) := by
  have hreg : ¬ (s.prevCount = -1 ∨ c < s.prevCount) := by
    push_neg
    exact ⟨h1, by omega⟩
  have ht : ¬ (t - s.lastUpdate < 0) := by omega
  by_cases hev : s.prevCount < c
  · by_cases hw : ((histSize * updRate * 60 : Nat) : Int) ≤ t - s.lastUpdate
    · simp only [update, if_neg h1, if_neg hreg, if_pos hev, if_neg ht, if_pos hw]
    · simp only [update, if_neg h1, if_neg hreg, if_pos hev, if_neg ht, if_neg hw]
  · by_cases hw : ((histSize * updRate * 60 : Nat) : Int) ≤ t - s.lastUpdate
    · simp only [update, if_neg h1, if_neg hreg, if_neg hev, if_neg ht, if_pos hw]
    · simp only [update, if_neg h1, if_neg hreg, if_neg hev, if_neg ht, if_neg hw]

end Lightning

namespace Claims

open Lightning

/-- Claim C1 (code bug): the spec's commit step says every `update` call
that completes the algorithm sets `lastUpdate = timestamp`, but the source
never assigns `nvLightning.lastUpdate` anywhere inside `update`.  Here a
call that runs the whole algorithm (no cold start, no regression,
non-negative elapsed time) leaves `lastUpdate` at its old value `100`
instead of the call's `timestamp = 700`. -/
theorem c1_lastUpdate_never_committed :
    (update 6 10 ⟨100, 5, -1, 0, 0, [0, 0, 0, 0, 0, 0]⟩ 700 8 3 false).lastUpdate = 100 ∧
    (update 6 10 ⟨100, 5, -1, 0, 0, [0, 0, 0, 0, 0, 0]⟩ 700 8 3 false).lastUpdate ≠ 700 := by
  decide

/-- Claim C2 (code bug): with `prevCount = 5` and `rawCount = 8` (delta
`d = 3`) and normal elapsed time, the post-state does have `events = 3`,
`distance = 3`, `timestamp = 700`, but the history bucket for the timestamp
(index 1) holds `0`, not `d = 3`: line 221 computes
`count - nvLightning.prevCount` after line 185 already re-baselined
`prevCount = count`, so the bucket write is always `0`. -/
theorem c2_bucket_write_always_zero :
    (update 6 10 ⟨100, 5, -1, 0, 0, [0, 0, 0, 0, 0, 0]⟩ 700 8 3 false).events = 3 ∧
    (update 6 10 ⟨100, 5, -1, 0, 0, [0, 0, 0, 0, 0, 0]⟩ 700 8 3 false).distance = 3 ∧
    (update 6 10 ⟨100, 5, -1, 0, 0, [0, 0, 0, 0, 0, 0]⟩ 700 8 3 false).timestamp = 700 ∧
    bucketIdx 10 700 = 1 ∧
    (update 6 10 ⟨100, 5, -1, 0, 0, [0, 0, 0, 0, 0, 0]⟩ 700 8 3 false).hist[1]? = some 0 := by
  decide

/-- Claim C3 (confirmed): `pastHour` returns exactly the sum of the history
entries `≠ -1`, and its boolean is `true` iff at least one entry is `≠ -1`
(hence `(0, false)` when every entry is `-1`).  The embedding is a pure
function of the state, mirroring that the source assigns only to its
out-parameter, never to `nvLightning`. -/
theorem c3_pastHour_sums_valid (s : NvLightning) :
    (pastHour s).1 = (s.hist.filter (fun v => decide (v ≠ -1))).sum ∧
    ((pastHour s).2 = true ↔ ∃ v ∈ s.hist, v ≠ -1) := by
  unfold pastHour
  rw [pastHour_foldl]
  simp [List.any_eq_true]

/-- Claim C4 (confirmed): `lastEvent` returns `none` iff `events = -1`, and
otherwise the stored `(timestamp, events, distance)` snapshot verbatim; the
embedding is a pure function of the state, mirroring that the source assigns
only to its out-parameters. -/
theorem c4_lastEvent_sentinel (s : NvLightning) :
    (lastEvent s = none ↔ s.events = -1) ∧
    (s.events ≠ -1 → lastEvent s = some (s.timestamp, s.events, s.distance)) := by
  unfold lastEvent
  by_cases h : s.events = -1 <;> simp [h]

theorem c4_lastEvent_sentinel_witness :
    lastEvent ⟨0, 0, 7, 2, 50, []⟩ = some (50, 7, 2) :=
  (c4_lastEvent_sentinel ⟨0, 0, 7, 2, 50, []⟩).2 (by decide)

/-- Claim C5 (confirmed): a counter regression (`rawCount = prevCount - k`,
`k > 0`) re-baselines `prevCount` and leaves every other field — `events`,
`distance`, `timestamp`, `lastUpdate` and the whole history — unchanged.
The hypotheses `0 ≤ prevCount - k` (the interface contract `rawCount ≥ 0`)
and `prevCount < 32768` (the value range of the `int16_t` field) keep the
`int16_t` store the identity. -/
theorem c5_regression_rebaselines (histSize updRate : Nat) (s : NvLightning)
    (t d k : Int) (b : Bool)
    (hP0 : 0 ≤ s.prevCount) (hP1 : s.prevCount < 32768)
    (hk : 0 < k) (hin : 0 ≤ s.prevCount - k) :
    update histSize updRate s t (s.prevCount - k) d b =
      { s with prevCount := s.prevCount - k } := by
  have h1 : ¬(s.prevCount = -1) := by omega
  have hw : wrap16 (s.prevCount - k) = s.prevCount - k := by unfold wrap16; omega
  simp only [update, if_neg h1]
  rw [if_pos (Or.inr (by omega))]
  rw [hw]

theorem c5_regression_rebaselines_witness :
    (0 : Int) < 2 ∧
    update 6 10 ⟨100, 5, -1, 0, 0, [0, 0, 0, 0, 0, 0]⟩ 700 ((5 : Int) - 2) 1 false =
      { (⟨100, 5, -1, 0, 0, [0, 0, 0, 0, 0, 0]⟩ : NvLightning) with
          prevCount := (5 : Int) - 2 } :=
  ⟨by norm_num,
   c5_regression_rebaselines 6 10 ⟨100, 5, -1, 0, 0, [0, 0, 0, 0, 0, 0]⟩ 700 1 2 false
     (by decide) (by decide) (by decide) (by decide)⟩

/-- Claim C6 counterexample: the claim asserts `prevCount = rawCount` after
a cold-start call "for all values of rawCount", but `prevCount` is an
`int16_t`: with `rawCount = 40000` the stored baseline is
`40000 - 65536 = -25536`, not `40000`. -/
theorem c6_cold_start_counterexample :
    (update 6 10 ⟨0, -1, -1, 0, 0, [0, 0, 0, 0, 0, 0]⟩ 0 40000 0 false).prevCount = -25536 ∧
    (update 6 10 ⟨0, -1, -1, 0, 0, [0, 0, 0, 0, 0, 0]⟩ 0 40000 0 false).prevCount ≠ 40000 := by
  decide

/-- Claim C6 (amended): a call from any state with `prevCount = -1` resets
the whole history to the cold-start fill — which, the `uint16_t` parameter
of `hist_init` being fed the header's default `-1` (modelled from the spec),
is `65535` in every bucket — and only re-baselines `prevCount = rawCount`,
for every `timestamp`, `distance` and `startupFlag` and every `rawCount`
representable in the `int16_t` field (`-32768 ≤ rawCount < 32768`); `events`
and every other field are left unchanged (in particular `events` is still
`-1` when it was `-1`). -/
theorem c6_cold_start_baseline (histSize updRate : Nat) (s : NvLightning)
    (t c d : Int) (b : Bool)
    (h1 : s.prevCount = -1) (hc1 : -32768 ≤ c) (hc2 : c < 32768) :
    update histSize updRate s t c d b =
      { s with prevCount := c, hist := List.replicate histSize 65535 } := by
  have hw : wrap16 c = c := by unfold wrap16; omega
  have hfill : hist_init histSize histInitFill = List.replicate histSize 65535 := by
    unfold hist_init histInitFill wrapU16
    norm_num
  simp only [update, hfill, if_pos h1]
  rw [if_pos (Or.inl (by simpa using h1))]
  rw [hw]

theorem c6_cold_start_baseline_witness :
    (⟨7, -1, -1, 0, 0, [5, 5, 5, 5, 5, 5]⟩ : NvLightning).prevCount = -1 ∧
    update 6 10 ⟨7, -1, -1, 0, 0, [5, 5, 5, 5, 5, 5]⟩ 123 42 9 true =
      { (⟨7, -1, -1, 0, 0, [5, 5, 5, 5, 5, 5]⟩ : NvLightning) with
          prevCount := 42, hist := List.replicate 6 65535 } :=
  ⟨by decide,
   c6_cold_start_baseline 6 10 ⟨7, -1, -1, 0, 0, [5, 5, 5, 5, 5, 5]⟩ 123 42 9 true
     (by decide) (by decide) (by decide)⟩

/-- Claim C10 (code bug): the source's static initializer for `nvLightning`
sets `events = 0`, not the documented sentinel `-1`, so `lastEvent` on the
freshly booted state claims a recorded strike `(timestamp 0, events 0,
distance 0)` instead of reporting "no data".  The source's own `reset()`
(which sets `events = -1`, after which `lastEvent` does return `none`) shows
the sentinel policy the initializer violates. -/
theorem c10_initial_state_not_sentinel :
    lastEvent (nvLightningInit 10) = some (0, 0, 0) ∧
    lastEvent (Lightning.reset (nvLightningInit 10)) = none := by
  decide

/-- Claim C7 (code bug): the spec intends the window-expiry reset to leave
every non-current bucket at the cold-start fill value, the "no data"
sentinel `-1`, and the claim states exactly that.  But `hist_init`'s
`uint16_t` parameter (line 124) converts the header's default `-1` to
`65535`, so the stored fill can never be the sentinel.  At a concrete
full-window gap (`HIST_SIZE = 6`, `UPD_RATE = 10`, `tDelta = 3660`), the
non-current buckets after the call hold `-1` (written by the invalidation
walk), which differs from the actual fill `65535` — the claimed equality
with the fill fails.  Moreover a history freshly filled by `hist_init` (as
after a cold start) is counted by `pastHour` as `6 * 65535 = 393210` valid
strikes, contradicting the code's own `!= -1` validity convention used by
the invalidation loop and `pastHour`, which shows the `-1` fill is the
intent and the `uint16_t` parameter the slip. -/
theorem c7_expiry_fill_mismatch :
    hist_init 6 histInitFill = List.replicate 6 65535 ∧
    (update 6 10 ⟨0, 5, -1, 0, 0, [7, 7, 7, 7, 7, 7]⟩ 3660 5 2 false).hist =
      [-1, -1, -1, -1, -1, -1] ∧
    pastHour ⟨0, -1, -1, 0, 0, hist_init 6 histInitFill⟩ = (393210, true) := by
  decide

/-- Claim C9 counterexample: the claimed configuration invariant
`HIST_SIZE * UPD_RATE ≤ 60` does not keep the bucket index in range.  With
`HIST_SIZE = 5`, `UPD_RATE = 10` (which satisfies `5 * 10 ≤ 60`), a
timestamp at minute 55 of the hour yields index `55 / 10 = 5 ∉ [0, 5)`,
an out-of-bounds history write in the C++ code. -/
theorem c9_index_counterexample :
    5 * 10 ≤ 60 ∧ bucketIdx 10 3300 = 5 ∧ ¬ bucketIdx 10 3300 < 5 := by
  decide

/-- Claim C9 (amended): under the exact-partition invariant
`HIST_SIZE * UPD_RATE = 60` (the buckets partition the clock hour), the
bucket index `minuteOfHour(t) / UPD_RATE` lies in `[0, HIST_SIZE)` for
every timestamp, so every history write of `update` — the current-bucket
write and each gap-invalidation write, all of which use this index
computation — is in bounds. -/
theorem c9_bucket_index_in_bounds (histSize updRate : Nat) (t : Int)
    (hHU : histSize * updRate = 60) :
    bucketIdx updRate t < histSize :=
  bucketIdx_lt histSize updRate t hHU

theorem c9_bucket_index_in_bounds_witness :
    10 * 6 = 60 ∧ bucketIdx 6 12345 < 10 :=
  ⟨by norm_num, c9_bucket_index_in_bounds 10 6 12345 (by norm_num)⟩

/-- Claim C8 counterexample: two updates separated by exactly `n = 1` full
bucket period (`HIST_SIZE = 6`, `UPD_RATE = 10`, `lastUpdate = 0`,
`timestamp = 600`).  The claim demands that exactly `n = 1` bucket other
than the current one be set to `-1`, but the loop `ts < timestamp` walks the
`n - 1 = 0` boundaries strictly inside the open interval, so no bucket at
all becomes `-1`. -/
theorem c8_exact_gap_counterexample :
    (update 6 10 ⟨0, 5, -1, 0, 0, [7, 7, 7, 7, 7, 7]⟩ 600 5 2 false).hist = [7, 0, 7, 7, 7, 7] ∧
    (update 6 10 ⟨0, 5, -1, 0, 0, [7, 7, 7, 7, 7, 7]⟩ 600 5 2 false).hist.count (-1) = 0 := by
  decide

/-- Claim C8 (amended): under the exact-partition invariant
`HIST_SIZE * UPD_RATE = 60`, for consecutive updates separated by exactly
`n` full bucket periods (`1 ≤ n < HIST_SIZE`, no cold start, no counter
regression, `rawCount` in `int16_t` range), the walk sets exactly the
`n - 1` buckets cyclically strictly between the old and the new bucket to
`-1`; the bucket containing the new timestamp is never invalidated by the
walk (it holds the step-6 write, which is `0`); and every other bucket is
left unchanged. -/
theorem c8_gap_invalidation (histSize updRate n : Nat) (s : NvLightning)
    (c d : Int) (b : Bool)
    (hHU : histSize * updRate = 60) (hn1 : 1 ≤ n) (hnH : n < histSize)
    (hlen : s.hist.length = histSize)
    (hP : 0 ≤ s.prevCount) (h2 : s.prevCount ≤ c) (hc : c < 32768) :
    (∀ k, 1 ≤ k → k < n →
      (update histSize updRate s (s.lastUpdate + (n : Int) * ((updRate : Int) * 60)) c d b).hist[(bucketIdx updRate s.lastUpdate + k) % histSize]?
        = some (-1)) ∧
    ((Finset.Ioo 0 n).image
        (fun k => (bucketIdx updRate s.lastUpdate + k) % histSize)).card = n - 1 ∧
    bucketIdx updRate (s.lastUpdate + (n : Int) * ((updRate : Int) * 60))
        = (bucketIdx updRate s.lastUpdate + n) % histSize ∧
    (update histSize updRate s (s.lastUpdate + (n : Int) * ((updRate : Int) * 60)) c d b).hist[(bucketIdx updRate s.lastUpdate + n) % histSize]?
        = some 0 ∧
    (∀ i, i < histSize →
      (∀ k, 1 ≤ k → k < n → i ≠ (bucketIdx updRate s.lastUpdate + k) % histSize) →
      i ≠ (bucketIdx updRate s.lastUpdate + n) % histSize →
      (update histSize updRate s (s.lastUpdate + (n : Int) * ((updRate : Int) * 60)) c d b).hist[i]?
        = s.hist[i]?) := by
  have hU : 0 < updRate := updRate_pos histSize updRate hHU
  have hH2 : 2 ≤ histSize := by omega
  have hHpos : 0 < histSize := by omega
  have hU1 : (1 : Int) ≤ (updRate : Int) := by exact_mod_cast hU
  have hPnn : (0 : Int) ≤ (n : Int) * ((updRate : Int) * 60) := by positivity
  have h3 : (0 : Int) ≤ s.lastUpdate + (n : Int) * ((updRate : Int) * 60) - s.lastUpdate := by
    omega
  have hidx : ∀ k : Nat,
      bucketIdx updRate (s.lastUpdate + (k : Int) * ((updRate : Int) * 60)) =
        (bucketIdx updRate s.lastUpdate + k) % histSize :=
    fun k => bucketIdx_add_mul histSize updRate s.lastUpdate hHU hH2 k
  have hwin : ¬ ((histSize * updRate * 60 : Nat) : Int) ≤
      s.lastUpdate + (n : Int) * ((updRate : Int) * 60) - s.lastUpdate := by
    have hn' : (n : Int) < (histSize : Int) := by exact_mod_cast hnH
    have hp : (0 : Int) < (updRate : Int) * 60 := by omega
    have hlt : (n : Int) * ((updRate : Int) * 60) < ((histSize * updRate * 60 : Nat) : Int) := by
      calc (n : Int) * ((updRate : Int) * 60)
          < (histSize : Int) * ((updRate : Int) * 60) :=
            mul_lt_mul_of_pos_right hn' hp
        _ = ((histSize * updRate * 60 : Nat) : Int) := by push_cast; ring
    omega
  have hval : (c - (if s.prevCount < c then wrap16 c else s.prevCount)) = 0 := by
    by_cases hev : s.prevCount < c
    · rw [if_pos hev, wrap16_eq_self c (by omega) hc]
      ring
    · rw [if_neg hev]
      omega
  have hhist := update_normal_hist histSize updRate s
    (s.lastUpdate + (n : Int) * ((updRate : Int) * 60)) c d b (by omega) h2 h3
  rw [if_neg hwin, hval] at hhist
  have hsteps : walkSteps updRate s.lastUpdate
      (s.lastUpdate + (n : Int) * ((updRate : Int) * 60)) = n - 1 :=
    walkSteps_exact updRate n s.lastUpdate hU hn1
  have hg : ∀ k : Nat,
      bucketIdx updRate (s.lastUpdate + ((k : Int) + 1) * ((updRate : Int) * 60)) =
        (bucketIdx updRate s.lastUpdate + (k + 1)) % histSize := by
    intro k
    have hc1 : ((k : Int) + 1) = ((k + 1 : Nat) : Int) := by push_cast; ring
    rw [hc1]
    exact hidx (k + 1)
  refine ⟨?_, ?_, hidx n, ?_, ?_⟩
  · intro k hk1 hkn
    obtain ⟨k0, rfl⟩ : ∃ k0, k = k0 + 1 := ⟨k - 1, by omega⟩
    rw [hhist]
    unfold invalidateWalk
    rw [hsteps, ← hg k0]
    apply foldl_set_hit
    · omega
    · rw [hg k0, List.length_set, hlen]
      exact Nat.mod_lt _ hHpos
  · have hinj : Set.InjOn (fun k => (bucketIdx updRate s.lastUpdate + k) % histSize)
        (Finset.Ioo 0 n) := by
      intro a ha b' hb' hab
      simp only [Finset.coe_Ioo, Set.mem_Ioo] at ha hb'
      exact add_mod_inj histSize (bucketIdx updRate s.lastUpdate) a b'
        (by omega) (by omega) hab
    rw [Finset.card_image_of_injOn hinj, Nat.card_Ioo]
    omega
  · rw [hhist]
    unfold invalidateWalk
    rw [hsteps]
    rw [foldl_set_miss]
    · rw [hidx n]
      apply List.getElem?_set_eq_of_lt
      rw [hlen]
      exact Nat.mod_lt _ hHpos
    · intro k hk heq
      rw [hg k] at heq
      have := add_mod_inj histSize (bucketIdx updRate s.lastUpdate) (k + 1) n
        (by omega) (by omega) heq
      omega
  · intro i hi hwalk hcur
    rw [hhist]
    unfold invalidateWalk
    rw [hsteps]
    rw [foldl_set_miss]
    · rw [hidx n]
      rw [List.getElem?_set_ne (Ne.symm hcur)]
    · intro k hk
      rw [hg k]
      exact Ne.symm (hwalk (k + 1) (by omega) (by omega))

theorem c8_gap_invalidation_witness :
    1 ≤ 2 ∧ 2 < 6 ∧
    (update 6 10 ⟨0, 5, -1, 0, 0, [7, 7, 7, 7, 7, 7]⟩ ((0 : Int) + (2 : Int) * ((10 : Int) * 60)) 9 2 false).hist[(bucketIdx 10 (0 : Int) + 1) % 6]?
      = some (-1) :=
  ⟨by norm_num, by norm_num,
   (c8_gap_invalidation 6 10 2 ⟨0, 5, -1, 0, 0, [7, 7, 7, 7, 7, 7]⟩ 9 2 false
      (by norm_num) (by norm_num) (by norm_num) (by decide) (by decide) (by decide)
      (by decide)).1 1 (by norm_num) (by norm_num)⟩

end Claims
